import Mathlib

/-!
Verification development for the fort.14 parsing and boundary-topology core of
oceanmesh-tools (src/oceanmesh_tools/io/fort14.py, io/fort14_boundaries.py,
mesh/boundary.py), via a shallow embedding.

Modelling conventions:
* A whitespace token of the input file is a `Tok`: `Tok.int n rs` is a token
  accepted by Python `int()` (value `n`), `Tok.flt q rs` is accepted by
  `float()` but not `int()` (value `q`, floats modelled as rationals), and
  `Tok.junk rs` is accepted by neither.  The field `rs` records the integers
  the regex `[-+]?\d+` extracts from the token text (used only by
  fort14_boundaries._ints); it is part of the input model, since the raw text
  is abstracted away.  For an ordinary integer token written without
  underscores `rs = [n]`.
* A physical line is its token list (`Line`); a line is blank (strips to "")
  iff its token list is empty.  A file is its list of lines.  Since digits
  cannot span whitespace, the regex scan of a raw line is the concatenation of
  the per-token scans.
* The seekable text stream is `FState`: the file plus a line-index cursor.
  The Python code only ever seeks to positions previously obtained from
  `tell()` at line starts, so a line index is a faithful model of the byte
  offset.  `readline()` at EOF yields the empty string, i.e. a blank line.
* Python exceptions escaping a function are `Except.error`.
-/

namespace OceanMesh

/-- One whitespace-delimited token of the input text (see module docstring). -/
inductive Tok where
  | int (n : Int) (rs : List Int)
  | flt (q : Rat) (rs : List Int)
  | junk (rs : List Int)
deriving DecidableEq, Repr

/-- Python `int(tok)`: succeeds exactly on integer-literal tokens. -/
def Tok.pyInt? : Tok → Option Int
  | .int n _ => some n
  | .flt _ _ => none
  | .junk _ => none

/-- Python `float(tok)`: succeeds on integer and float literals. -/
def Tok.pyFloat? : Tok → Option Rat
  | .int n _ => some (n : Rat)
  | .flt q _ => some q
  | .junk _ => none

/-- Integers the regex `[-+]?\d+` extracts from the token's text. -/
def Tok.regexInts : Tok → List Int
  | .int _ rs => rs
  | .flt _ rs => rs
  | .junk rs => rs

/-- A plainly written integer token (regex sees exactly its value). -/
def Tok.i (n : Int) : Tok := .int n [n]

abbrev Line := List Tok

/-- fort14.py `_parse_ints`: the int-like tokens of a line, parsed. -/
def parse_ints (l : Line) : List Int := l.filterMap Tok.pyInt?

/-- fort14_boundaries.py `_ints`: regex integer extraction over a whole line. -/
def lineRegexInts (l : Line) : List Int := (l.map Tok.regexInts).flatten

/-- A seekable text stream: the file content plus the cursor (line index). -/
structure FState where
  lines : List Line
  pos : Nat
deriving DecidableEq, Repr

/-- Python `f.readline()`: `none` at EOF (cursor unchanged), else the next
line (cursor advanced). -/
def readline (st : FState) : Option Line × FState :=
  match st.lines[st.pos]? with
  | none => (none, st)
  | some l => (some l, ⟨st.lines, st.pos + 1⟩)

/-- The cursor after skipping the maximal prefix of blank lines at `st`. -/
def skipBlanks (st : FState) : Nat :=
  st.pos + ((st.lines.drop st.pos).takeWhile (fun l => l = [])).length

/-- fort14.py `_read_nonempty_line`: skip blank lines; `none` at EOF.  The
skip loop is rendered closed-form: the cursor moves past the maximal prefix
of blank lines and the first non-blank line (if any) is consumed. -/
def read_nonempty_line (st : FState) : Option Line × FState :=
  match st.lines[skipBlanks st]? with
  | none => (none, ⟨st.lines, skipBlanks st⟩)
  | some l => (some l, ⟨st.lines, skipBlanks st + 1⟩)

/-- The cursor after skipping the maximal prefix of lines with no integer
tokens at `st` (blank lines have no tokens, so this covers both `continue`s
of the source loop). -/
def skipNoInts (st : FState) : Nat :=
  st.pos + ((st.lines.drop st.pos).takeWhile (fun l => parse_ints l = [])).length

/-- fort14.py `_read_nonempty_ints`: skip blank lines and lines with no
integer tokens; return the parsed ints together with the stream position of
the consumed line (for rewinding), or `none` plus the EOF position. -/
def read_nonempty_ints (st : FState) : (Option (List Int) × Nat) × FState :=
  match st.lines[skipNoInts st]? with
  | none => ((none, skipNoInts st), ⟨st.lines, skipNoInts st⟩)
  | some l => ((some (parse_ints l), skipNoInts st), ⟨st.lines, skipNoInts st + 1⟩)

/-- Loop body of fort14.py `_peek_exact_int_lines` (`n` iterations). -/
def peek_exact_go (st : FState) : Nat → Option (List Int)
  | 0 => some []
  | k + 1 =>
    match read_nonempty_line st with
    | (none, _) => none
    | (some l, st1) =>
      match parse_ints l with
      | [v] => (peek_exact_go st1 k).map (fun vs => v :: vs)
      | _ => none

/-- fort14.py `_peek_exact_int_lines`: ints from the next `n` non-blank lines
iff each has exactly one integer token; never moves the cursor. -/
def peek_exact_int_lines (st : FState) (n : Int) : Option (List Int) :=
  if n ≤ 0 then some [] else peek_exact_go st n.toNat

/-- Loop body of fort14.py `_read_exact_int_lines` (consuming variant; a
deviating line is consumed before the loop breaks, as in the source). -/
def read_exact_go (st : FState) : Nat → List Int × FState
  | 0 => ([], st)
  | k + 1 =>
    match read_nonempty_line st with
    | (none, st1) => ([], st1)
    | (some l, st1) =>
      match parse_ints l with
      | [v] =>
        let r := read_exact_go st1 k
        (v :: r.1, r.2)
      | _ => ([], st1)

/-- fort14.py `_read_exact_int_lines`: consume up to `n` single-integer
non-blank lines; stop early on EOF or a deviating line. -/
def read_exact_int_lines (st : FState) (n : Int) : List Int × FState :=
  read_exact_go st (max 0 n).toNat

/-- The Candidate-B accumulation loop of fort14.py `_parse_one_boundary`
(lines 147-165): `S` iterations, each reading a segment header line, then
either `N` single-int lines (peek-validated, with a salvage read on
deviation) or the header's own ints as the segment. -/
def build_candidate_b_go (st : FState) : Nat → List Int × FState
  | 0 => ([], st)
  | k + 1 =>
    match read_nonempty_line st with
    | (none, st1) => ([], st1)
    | (some line, st1) =>
      match parse_ints line with
      | [] => build_candidate_b_go st1 k
      | [n] =>
        if 1 ≤ n then
          let step : List Int × FState :=
            match peek_exact_int_lines st1 n with
            | some vals =>
              if vals.length = n.toNat then
                let r := read_exact_int_lines st1 n
                (vals, r.2)
              else read_exact_int_lines st1 n
            | none => read_exact_int_lines st1 n
          let rest := build_candidate_b_go step.2 k
          (step.1 ++ rest.1, rest.2)
        else
          let rest := build_candidate_b_go st1 k
          (n :: rest.1, rest.2)
      | seg =>
        let rest := build_candidate_b_go st1 k
        (seg ++ rest.1, rest.2)

/-- The Candidate-B committing loop of fort14.py `_parse_one_boundary`
(lines 177-187 and identically 194-204): like the accumulation loop but
reading directly without the redundant peek. -/
def commit_candidate_b_go (st : FState) : Nat → List Int × FState
  | 0 => ([], st)
  | k + 1 =>
    match read_nonempty_line st with
    | (none, st1) => ([], st1)
    | (some line, st1) =>
      match parse_ints line with
      | [] => commit_candidate_b_go st1 k
      | [n] =>
        if 1 ≤ n then
          let r := read_exact_int_lines st1 n
          let rest := commit_candidate_b_go r.2 k
          (r.1 ++ rest.1, rest.2)
        else
          let rest := commit_candidate_b_go st1 k
          (n :: rest.1, rest.2)
      | seg =>
        let rest := commit_candidate_b_go st1 k
        (seg ++ rest.1, rest.2)

/-- The segment count `S` of fort14.py `_parse_one_boundary`:
`header_ints[0] if (len(header_ints) == 1 and header_ints[0] >= 1) else 1`. -/
def segment_count (headerInts : List Int) : Int :=
  match headerInts with
  | [h] => if 1 ≤ h then h else 1
  | _ => 1

/-- Candidate A of fort14.py `_parse_one_boundary` (lines 133-140): when the
header is a single integer `H ≥ 1` and the next `H` non-blank lines each hold
exactly one integer, those integers paired with `H`. -/
def candidate_a (stH : FState) (headerInts : List Int) : Option (List Int × Int) :=
  match headerInts with
  | [h] =>
    if 1 ≤ h then
      match peek_exact_int_lines stH h with
      | some vals => if vals.length = h.toNat then some (vals, h) else none
      | none => none
    else none
  | _ => none

/-- fort14.py `_parse_one_boundary`: parse one boundary using the dual
Candidate A (nodes-in-boundary) / Candidate B (segments) strategies.  The
`knownIds` argument mirrors the source's `known_node_ids` parameter, which
the implementation never reads.  Despite the docstring's scoring contract,
the selection is: with a matching `totalHint` commit the candidate whose
length equals the hint (A checked first); otherwise commit A whenever it
exists, else B. -/
def parse_one_boundary (st : FState) (_knownIds : List Int)
    (totalHint : Option Int) : List Int × FState :=
  match (read_nonempty_ints st).1.1, (read_nonempty_ints st).2 with
  | none, stH => ([], stH)
  | some headerInts, stH =>
    let aCand := candidate_a stH headerInts
    let bNodes := (build_candidate_b_go stH (max 0 (segment_count headerInts)).toNat).1
    match totalHint with
    | some t =>
      match aCand with
      | some (aN, aH) =>
        if (aN.length : Int) = t ∧ (bNodes.length : Int) ≠ t then
          read_exact_int_lines stH aH
        else if (bNodes.length : Int) = t ∧ (aN.length : Int) ≠ t then
          commit_candidate_b_go stH (max 0 (segment_count headerInts)).toNat
        else
          read_exact_int_lines stH aH
      | none =>
        if (bNodes.length : Int) = t then
          commit_candidate_b_go stH (max 0 (segment_count headerInts)).toNat
        else
          commit_candidate_b_go stH (max 0 (segment_count headerInts)).toNat
    | none =>
      match aCand with
      | some (_, aH) => read_exact_int_lines stH aH
      | none => commit_candidate_b_go stH (max 0 (segment_count headerInts)).toNat

/-- The parsed mesh record (fort14.py `Fort14`).  Coordinates and depths are
the rational values of their float tokens; the title is the (stripped) token
view of the first line. -/
structure Fort14 where
  title : Line
  n_nodes : Int
  n_elements : Int
  nodes : List (Int × Rat × Rat × Rat)
  elements : List (Int × Int × Int × Int × Int)
  open_boundaries : List (List Int)
  land_boundaries : List (List Int)
deriving DecidableEq, Repr

/-- One node line of `parse_fort14` (lines 289-296): at least 4 fields,
`id x y depth` converted as int/float/float/float. -/
def parseNode (l : Line) : Except String (Int × Rat × Rat × Rat) :=
  match l with
  | t0 :: t1 :: t2 :: t3 :: _ =>
    match t0.pyInt?, t1.pyFloat?, t2.pyFloat?, t3.pyFloat? with
    | some nid, some x, some y, some d => .ok (nid, x, y, d)
    | _, _, _, _ => .error "invalid literal in node line"
  | _ => .error "Invalid fort.14: node line too short"

/-- One element line of `parse_fort14` (lines 301-310): at least 5 fields;
field 2 (nodes-per-element) is skipped without conversion; the optional 6th
field is converted when present, else `n4 = 0`. -/
def parseElem (l : Line) : Except String (Int × Int × Int × Int × Int) :=
  match l with
  | t0 :: _t1 :: t2 :: t3 :: t4 :: rest =>
    match t0.pyInt?, t2.pyInt?, t3.pyInt?, t4.pyInt? with
    | some eid, some n1, some n2, some n3 =>
      match rest with
      | [] => .ok (eid, n1, n2, n3, 0)
      | t5 :: _ =>
        match t5.pyInt? with
        | some n4 => .ok (eid, n1, n2, n3, n4)
        | none => .error "invalid literal in element line"
    | _, _, _, _ => .error "invalid literal in element line"
  | _ => .error "Invalid fort.14: element line too short"

/-- The node/element table loop of `parse_fort14`: `n` raw `readline` calls,
each row parsed by `f`; the first failure aborts. -/
def readTable {α : Type} (f : Line → Except String α) (st : FState) :
    Nat → Except String (List α × FState)
  | 0 => .ok ([], st)
  | k + 1 =>
    match f ((readline st).1.getD []) with
    | .error e => .error e
    | .ok a =>
      match readTable f (readline st).2 k with
      | .error e => .error e
      | .ok (as, st2) => .ok (a :: as, st2)

/-- The state after the Title/Counts/Nodes/Elements stages of
`parse_fort14` (lines 277-310). -/
structure Stage1 where
  title : Line
  n_elements : Int
  n_nodes : Int
  nodes : List (Int × Rat × Rat × Rat)
  elements : List (Int × Int × Int × Int × Int)
  st : FState
deriving DecidableEq, Repr

/-- Title, counts, node table and element table of `parse_fort14`
(lines 277-310); every fatal error of the parser originates here. -/
def parse_upto_elements (file : List Line) : Except String Stage1 :=
  match parse_ints ((readline (readline ⟨file, 0⟩).2).1.getD []) with
  | c0 :: c1 :: _ =>
    match readTable parseNode (readline (readline ⟨file, 0⟩).2).2 (max 0 c1).toNat with
    | .error e => .error e
    | .ok (nodes, st3) =>
      match readTable parseElem st3 (max 0 c0).toNat with
      | .error e => .error e
      | .ok (elems, st4) =>
        .ok ⟨(readline ⟨file, 0⟩).1.getD [], c0, c1, nodes, elems, st4⟩
  | _ => .error "Invalid fort.14: missing counts line"

/-- The multi-boundary loop of `parse_fort14` (lines 349-351 / 384-386):
one `_parse_one_boundary` call per declared boundary, collected in order. -/
def boundary_loop (st : FState) (knownIds : List Int) (totalHint : Option Int) :
    Nat → List (List Int) × FState
  | 0 => ([], st)
  | k + 1 =>
    let r := parse_one_boundary st knownIds totalHint
    let rest := boundary_loop r.2 knownIds totalHint k
    (r.1 :: rest.1, rest.2)

/-- The body of one boundary-group section once the group count `nB` has
been read (open: lines 321-351, land: lines 362-386 of fort14.py): peek an
optional single-int total-nodes line (always rewinding), then parse the
declared number of boundaries, with the `nB == 1` retry that re-reads the
supposed total line as the boundary header when the total is not met. -/
def parse_boundary_body (st1 : FState) (knownIds : List Int) (nB : Int) :
    List (List Int) × FState :=
  let posAfter := st1.pos
  let peeked := read_nonempty_ints st1
  let ints? := peeked.1.1
  let posBefore := peeked.1.2
  let totalInfo : Option Int × Option Nat :=
    match ints? with
    | some [v] => (some v, some posBefore)
    | _ => (none, none)
  let stSeek : FState :=
    match ints? with
    | some _ => ⟨st1.lines, posBefore⟩
    | none => ⟨st1.lines, posAfter⟩
  if nB = 1 then
    let r := parse_one_boundary stSeek knownIds totalInfo.1
    match totalInfo.1, totalInfo.2 with
    | some t0, some pbt =>
      if (r.1.length : Int) ≠ t0 then
        let r2 := parse_one_boundary ⟨st1.lines, pbt⟩ knownIds none
        ([r2.1], r2.2)
      else ([r.1], r.2)
    | _, _ => ([r.1], r.2)
  else
    boundary_loop stSeek knownIds totalInfo.1 (max 0 nB).toNat

/-- One boundary-group section of `parse_fort14` (open: lines 313-351,
land: lines 354-386).  `none` means the group-count header was missing (EOF)
or its first token failed Python `int()` — the caller then degrades to empty
boundary lists; otherwise the section body runs on the declared count. -/
def parse_boundary_section (st : FState) (knownIds : List Int) :
    Option (List (List Int) × FState) :=
  match read_nonempty_line st with
  | (none, _) => none
  | (some [], _) => none
  | (some (t :: _), st1) =>
    match t.pyInt? with
    | none => none
    | some nB => some (parse_boundary_body st1 knownIds nB)

/-- fort14.py `parse_fort14`: the whole parser.  Boundary-section failures
degrade to empty lists; only the stages up to the element table can raise. -/
def parse_fort14 (file : List Line) : Except String Fort14 :=
  match parse_upto_elements file with
  | .error e => .error e
  | .ok s1 =>
    match parse_boundary_section s1.st (s1.nodes.map (fun n => n.1)) with
    | none => .ok ⟨s1.title, s1.n_nodes, s1.n_elements, s1.nodes, s1.elements, [], []⟩
    | some (openB, st2) =>
      match parse_boundary_section st2 (s1.nodes.map (fun n => n.1)) with
      | none =>
        .ok ⟨s1.title, s1.n_nodes, s1.n_elements, s1.nodes, s1.elements, openB, []⟩
      | some (landB, _) =>
        .ok ⟨s1.title, s1.n_nodes, s1.n_elements, s1.nodes, s1.elements, openB, landB⟩

/-! ## mesh/boundary.py -/

/-- An element tuple `(eid, n1, n2, n3, n4_or_0)` as stored in `Fort14`. -/
abbrev Elem := Int × Int × Int × Int × Int

/-- boundary.py's edge normalization (`(i, j) if i < j else (j, i)`), used
both by `build_edge_counts` and by the local `key` helpers. -/
def normEdge (i j : Int) : Int × Int := if i < j then (i, j) else (j, i)

/-- `counts[e] += 1` on an insertion-ordered dict modelled as an association
list: bump in place if present, else append with count 1 (defaultdict). -/
def dictInc (l : List ((Int × Int) × Nat)) (k : Int × Int) :
    List ((Int × Int) × Nat) :=
  match l with
  | [] => [(k, 1)]
  | (k0, v) :: rest =>
    if k0 = k then (k0, v + 1) :: rest else (k0, v) :: dictInc rest k

/-- The per-element step of `build_edge_counts`: count the three normalized
undirected edges `(a,b) (b,c) (c,a)`. -/
def addElemEdges (counts : List ((Int × Int) × Nat)) (e : Elem) :
    List ((Int × Int) × Nat) :=
  dictInc (dictInc (dictInc counts (normEdge e.2.1 e.2.2.1))
    (normEdge e.2.2.1 e.2.2.2.1)) (normEdge e.2.2.2.1 e.2.1)

/-- boundary.py `build_edge_counts`: undirected edge multiplicities over all
elements, as an insertion-ordered dict. -/
def build_edge_counts (elements : List Elem) : List ((Int × Int) × Nat) :=
  elements.foldl addElemEdges []

/-- boundary.py `boundary_edges_from_counts`: the edges of multiplicity 1,
in dict insertion order. -/
def boundary_edges_from_counts (counts : List ((Int × Int) × Nat)) :
    List (Int × Int) :=
  (counts.filter (fun p => p.2 = 1)).map (fun p => p.1)

/-- `nbrs[k].append(v)` on the insertion-ordered adjacency dict. -/
def adjAppend (l : List (Int × List Int)) (k : Int) (v : Int) :
    List (Int × List Int) :=
  match l with
  | [] => [(k, [v])]
  | (k0, vs) :: rest =>
    if k0 = k then (k0, vs ++ [v]) :: rest else (k0, vs) :: adjAppend rest k v

/-- The adjacency dict of `walk_closed_loops` (lines 23-26), keys in first
insertion order. -/
def buildNbrs (edges : List (Int × Int)) : List (Int × List Int) :=
  edges.foldl (fun nbrs e => adjAppend (adjAppend nbrs e.1 e.2) e.2 e.1) []

/-- Dict lookup with default `[]`.  In the walk every looked-up node is an
edge endpoint and hence already a key, so the defaultdict never inserts; for
`nbrs.get(loop[-1], [])` the default is the source's own. -/
def nbrsGet (nbrs : List (Int × List Int)) (k : Int) : List Int :=
  match nbrs.find? (fun p => p.1 = k) with
  | some p => p.2
  | none => []

/-- Python `sorted` on integer lists. -/
def sortInts (l : List Int) : List Int :=
  List.insertionSort (fun a b => a ≤ b) l

/-- `used.add(e)` on the used-edge set (membership-only, modelled as a
duplicate-free list). -/
def setAdd (s : List (Int × Int)) (k : Int × Int) : List (Int × Int) :=
  if k ∈ s then s else s ++ [k]

/-- The inner `while True` walk of `walk_closed_loops` (lines 48-65), fuelled.
`start = loop[0]` and `snd = loop[1]` are fixed after the first append.  Each
iteration adds the edge `(cur, nxt)` to `used`; after the first iteration
every traversed edge is checked unused before it is followed, so `used` grows
on every iteration but possibly the first, and the walk performs at most
`|edges| + 2` iterations — the fuel passed by `walk_closed_loops` is twice
that, so exhaustion (returning the partial loop) is unreachable. -/
def walkLoop (nbrs : List (Int × List Int)) (start snd : Int) :
    Nat → List (Int × Int) → List Int → Int → Int → List Int × List (Int × Int)
  | 0, used, loop, _, _ => (loop, used)
  | fuel + 1, used, loop, cur, nxt =>
    let used1 := setAdd used (normEdge cur nxt)
    let prev := cur
    let cur1 := nxt
    let loop1 := loop ++ [cur1]
    let cands := (sortInts (nbrsGet nbrs cur1)).filter
      (fun v => v ≠ prev ∧ normEdge cur1 v ∉ used1)
    match cands with
    | [] =>
      if cur1 = start then (loop1, used1)
      else if normEdge cur1 start ∉ used1 ∧ start ∈ nbrsGet nbrs cur1 then
        walkLoop nbrs start snd fuel used1 loop1 cur1 start
      else (loop1, used1)
    | c :: _ =>
      if cur1 = start ∧ c = snd then (loop1, used1)
      else walkLoop nbrs start snd fuel used1 loop1 cur1 c

/-- The loop-closing step of `walk_closed_loops` (lines 66-68): append the
start when the walk ended elsewhere on a neighbour of the start.  The
defaults of the `getD`s are irrelevant: the walked loop is never empty. -/
def closeLoop (nbrs : List (Int × List Int)) (start : Int) (loop : List Int) :
    List Int :=
  if loop.head?.getD start ≠ loop.getLast?.getD start ∧
      loop.head?.getD start ∈ nbrsGet nbrs (loop.getLast?.getD start) then
    loop ++ [loop.head?.getD start]
  else loop

/-- The per-start body of `walk_closed_loops` (lines 33-70): skip starts with
all incident edges used or no neighbours; otherwise walk from the smallest
neighbour, close the loop if the final node neighbours the start, and keep
the result iff it has at least 3 entries. -/
def walkFromStart (nbrs : List (Int × List Int)) (fuel : Nat)
    (acc : List (List Int) × List (Int × Int)) (start : Int) :
    List (List Int) × List (Int × Int) :=
  if (nbrsGet nbrs start).all (fun v => normEdge start v ∈ acc.2) then acc
  else if nbrsGet nbrs start = [] then acc
  else
    match sortInts (nbrsGet nbrs start) with
    | [] => acc
    | nxt :: _ =>
      if 3 ≤ (closeLoop nbrs start
          (walkLoop nbrs start nxt fuel acc.2 [start] start nxt).1).length then
        (acc.1 ++ [closeLoop nbrs start
            (walkLoop nbrs start nxt fuel acc.2 [start] start nxt).1],
         (walkLoop nbrs start nxt fuel acc.2 [start] start nxt).2)
      else (acc.1, (walkLoop nbrs start nxt fuel acc.2 [start] start nxt).2)

/-- boundary.py `walk_closed_loops`: walk the boundary-edge graph into loops,
deterministically (smallest-id tie-breaking), one walk per viable start key. -/
def walk_closed_loops (boundary_edges : List (Int × Int)) : List (List Int) :=
  let nbrs := buildNbrs boundary_edges
  ((nbrs.map (fun p => p.1)).foldl
    (walkFromStart nbrs (2 * boundary_edges.length + 4)) ([], [])).1

/-- The fallback scan of `compute_outer_loops` (lines 85-91): unique node ids
referenced by elements, in first-seen order. -/
def uniqueElemNodes (elements : List Elem) : List Int :=
  elements.foldl (fun seen e =>
    let seen1 := if e.2.1 ∈ seen then seen else seen ++ [e.2.1]
    let seen2 := if e.2.2.1 ∈ seen1 then seen1 else seen1 ++ [e.2.2.1]
    if e.2.2.2.1 ∈ seen2 then seen2 else seen2 ++ [e.2.2.2.1]) []

/-- boundary.py `compute_outer_loops`: boundary loops from the element table,
falling back to a single ring over the unique node ids (closed by repeating
the first) when no boundary edges exist — but only when at least 3 unique
ids are referenced, else the empty list. -/
def compute_outer_loops (elements : List Elem) : List (List Int) :=
  if walk_closed_loops (boundary_edges_from_counts (build_edge_counts elements))
      ≠ [] then
    walk_closed_loops (boundary_edges_from_counts (build_edge_counts elements))
  else if 3 ≤ (uniqueElemNodes elements).length then
    [uniqueElemNodes elements ++ [(uniqueElemNodes elements).headI]]
  else []

/-! ## io/fort14_boundaries.py -/

/-- The boundaries record (`Fort14Boundaries`): node coordinates, 0-based
open segments, `(ibtype, 0-based segment)` land pairs, and the meta dict
(insertion-ordered). -/
structure Fort14Boundaries where
  nodes_xy : List (Rat × Rat)
  open_segments : List (List Int)
  land_segments : List (Option Int × List Int)
  meta : List (String × Int)
deriving DecidableEq, Repr

/-- The accumulation loop of fort14_boundaries.py `_read_n_ints`: keep
reading raw lines, extending with their regex integers (skipping lines with
none), until `need` values are collected; EOF raises.  Structured over the
not-yet-read suffix `rest = lines.drop pos` of the file. -/
def read_n_ints_go (lines : List Line) (need : Nat) :
    List Line → Nat → List Int → Except String (List Int × FState)
  | rest, pos, vals =>
    if vals.length < need then
      match rest with
      | [] => .error "Unexpected EOF while reading boundary section"
      | l :: rest1 =>
        if lineRegexInts l = [] then read_n_ints_go lines need rest1 (pos + 1) vals
        else read_n_ints_go lines need rest1 (pos + 1) (vals ++ lineRegexInts l)
    else .ok (vals.take need, ⟨lines, pos⟩)

/-- fort14_boundaries.py `_read_n_ints`. -/
def read_n_ints (st : FState) (need : Nat) : Except String (List Int × FState) :=
  read_n_ints_go st.lines need (st.lines.drop st.pos) st.pos []

/-- Skip `n` raw lines (the node/element blocks of the re-read pass). -/
def skipLines (st : FState) : Nat → FState
  | 0 => st
  | k + 1 => skipLines (readline st).2 k

/-- The per-boundary node-id loop of `parse_fort14_boundaries` (lines 69 and
79): `m_nodes` single-value `_read_n_ints` calls, each id made 0-based. -/
def read_seg (st : FState) : Nat → Except String (List Int × FState)
  | 0 => .ok ([], st)
  | k + 1 =>
    match read_n_ints st 1 with
    | .error e => .error e
    | .ok (vs, st1) =>
      match read_seg st1 k with
      | .error e => .error e
      | .ok (rest, st2) => .ok ((vs.headI - 1) :: rest, st2)

/-- The open-boundary group loop of `parse_fort14_boundaries` (lines 67-70). -/
def open_group_loop (st : FState) : Nat → Except String (List (List Int) × FState)
  | 0 => .ok ([], st)
  | k + 1 =>
    match read_n_ints st 1 with
    | .error e => .error e
    | .ok (vs, st1) =>
      match read_seg st1 (max 0 vs.headI).toNat with
      | .error e => .error e
      | .ok (seg, st2) =>
        match open_group_loop st2 k with
        | .error e => .error e
        | .ok (rest, st3) => .ok (seg :: rest, st3)

/-- The land-boundary group loop of `parse_fort14_boundaries` (lines 75-80):
the `m ib` pair is read as two integers, tolerating one line or two. -/
def land_group_loop (st : FState) :
    Nat → Except String (List (Option Int × List Int) × FState)
  | 0 => .ok ([], st)
  | k + 1 =>
    match read_n_ints st 2 with
    | .error e => .error e
    | .ok (vs, st1) =>
      match read_seg st1 (max 0 vs.headI).toNat with
      | .error e => .error e
      | .ok (seg, st2) =>
        match land_group_loop st2 k with
        | .error e => .error e
        | .ok (rest, st3) => .ok ((some vs.tail.headI, seg) :: rest, st3)

/-- The primary (re-read) pass of `parse_fort14_boundaries` (lines 51-88):
integer-only scanning of the boundary trailer; any EOF raises into the
fallback. -/
def primary_boundaries (file : List Line) (m : Fort14) :
    Except String
      (List (List Int) × List (Option Int × List Int) × List (String × Int)) :=
  let st1 := (readline ⟨file, 0⟩).2
  match read_n_ints st1 2 with
  | .error e => .error e
  | .ok (_, st2) =>
    let st3 := skipLines st2 (max 0 m.n_nodes).toNat
    let st4 := skipLines st3 (max 0 m.n_elements).toNat
    match read_n_ints st4 1 with
    | .error e => .error e
    | .ok (nopeV, st5) =>
      match read_n_ints st5 1 with
      | .error e => .error e
      | .ok (nbouV, st6) =>
        match open_group_loop st6 (max 0 nopeV.headI).toNat with
        | .error e => .error e
        | .ok (openSegs, st7) =>
          match read_n_ints st7 1 with
          | .error e => .error e
          | .ok (nbobV, st8) =>
            match read_n_ints st8 1 with
            | .error e => .error e
            | .ok (nbobnV, st9) =>
              match land_group_loop st9 (max 0 nbobV.headI).toNat with
              | .error e => .error e
              | .ok (landSegs, _) =>
                .ok (openSegs, landSegs,
                  [("NOPE", nopeV.headI), ("NBOU", nbouV.headI),
                   ("NBOB", nbobV.headI), ("NBOBN", nbobnV.headI),
                   ("NNODES", m.n_nodes), ("NELEMS", m.n_elements)])

/-- The fallback segments of `parse_fort14_boundaries` (lines 91-100):
0-based ids from the robust parser, negatives dropped, `ibtype = None`. -/
def fallback_boundaries (m : Fort14) :
    List (List Int) × List (Option Int × List Int) × List (String × Int) :=
  (m.open_boundaries.map (fun seg => (seg.map (fun n => n - 1)).filter
      (fun i => 0 ≤ i)),
   m.land_boundaries.map (fun seg =>
      (none, (seg.map (fun n => n - 1)).filter (fun i => 0 ≤ i))),
   [("NOPE", (m.open_boundaries.length : Int)),
    ("NBOU", ((m.open_boundaries.map List.length).sum : Int)),
    ("NBOB", (m.land_boundaries.length : Int)),
    ("NBOBN", ((m.land_boundaries.map List.length).sum : Int)),
    ("NNODES", m.n_nodes), ("NELEMS", m.n_elements)])

/-- Python `min` over a non-empty integer list (0 for `[]`, unused there). -/
def listMinI : List Int → Int
  | [] => 0
  | x :: xs => xs.foldl min x

/-- Python `max` over a non-empty integer list (0 for `[]`, unused there). -/
def listMaxI : List Int → Int
  | [] => 0
  | x :: xs => xs.foldl max x

/-- The `_in_range` sanity check of `parse_fort14_boundaries` (lines 103-104):
empty, or min ≥ 0 and max < `nmax`. -/
def in_range (nmax : Int) (seg : List Int) : Bool :=
  seg.length = 0 ∨ (0 ≤ listMinI seg ∧ listMaxI seg < nmax)

/-- The final assembly of `parse_fort14_boundaries` (lines 101-107): filter
out-of-range segments on both paths, then build the record. -/
def assemble_boundaries (nodes_xy : List (Rat × Rat))
    (r : List (List Int) × List (Option Int × List Int) × List (String × Int)) :
    Fort14Boundaries :=
  ⟨nodes_xy,
   r.1.filter (in_range (nodes_xy.length : Int)),
   r.2.1.filter (fun p => in_range (nodes_xy.length : Int) p.2),
   r.2.2⟩

/-- fort14_boundaries.py `parse_fort14_boundaries`: parse the mesh, try the
integer-only re-read of the boundary trailer, fall back to the robust
parser's segments on any exception, and range-filter the result. -/
def parse_fort14_boundaries (file : List Line) : Except String Fort14Boundaries :=
  match parse_fort14 file with
  | .error e => .error e
  | .ok m =>
    let nodes_xy := m.nodes.map (fun n => (n.2.1, n.2.2.1))
    let r :=
      match primary_boundaries file m with
      | .ok r0 => r0
      | .error _ => fallback_boundaries m
    .ok (assemble_boundaries nodes_xy r)

/-! ## Auxiliary definitions for the claim statements -/

/-- The line of a file at index `k` as the parser sees it (`readline` past
EOF yields the empty string, i.e. the blank line). -/
def getL (lines : List Line) (k : Nat) : Line := lines[k]?.getD []

/-- The boundary-group header at stream position `st` is unreadable: EOF, or
its first token fails Python `int()`.  These are exactly the degraded (no
raise) conditions of claim C3. -/
def header_unreadable (st : FState) : Prop :=
  (read_nonempty_line st).1 = none ∨
    (∃ t rest, (read_nonempty_line st).1 = some (t :: rest) ∧ t.pyInt? = none)

/-- The open-boundary group count a file declares: the first token of the
first non-blank line after the element table, when it parses as an int. -/
def declared_n_open (file : List Line) : Option Int :=
  match parse_upto_elements file with
  | .error _ => none
  | .ok s1 =>
    match (read_nonempty_line s1.st).1 with
    | none => none
    | some [] => none
    | some (t :: _) => t.pyInt?

/-- Modelled from the spec (claim C4, amended): a node line is structurally
bad when it has fewer than 4 fields or one of the four converted fields
(id as int, x/y/depth as float) fails numeric conversion. -/
def badNodeLine (l : Line) : Prop :=
  l.length < 4 ∨ ((l.get? 0).bind Tok.pyInt?) = none ∨
    ((l.get? 1).bind Tok.pyFloat?) = none ∨
    ((l.get? 2).bind Tok.pyFloat?) = none ∨
    ((l.get? 3).bind Tok.pyFloat?) = none

/-- Modelled from the spec (claim C4, amended): an element line is
structurally bad when it has fewer than 5 fields or one of the converted
fields (1st, 3rd, 4th, 5th, and 6th when present — the 2nd, the
nodes-per-element count, is never converted) fails int conversion. -/
def badElemLine (l : Line) : Prop :=
  l.length < 5 ∨ ((l.get? 0).bind Tok.pyInt?) = none ∨
    ((l.get? 2).bind Tok.pyInt?) = none ∨
    ((l.get? 3).bind Tok.pyInt?) = none ∨
    ((l.get? 4).bind Tok.pyInt?) = none ∨
    (5 < l.length ∧ ((l.get? 5).bind Tok.pyInt?) = none)

/-- Modelled from the spec (claim C4, amended): the fatal structural error
conditions — counts line (file line 1) yields fewer than 2 integers, or a
bad line occurs among the `node_count` node lines (file lines 2..) or the
`element_count` element lines that follow them. -/
def structural_error_spec (file : List Line) : Prop :=
  match parse_ints (getL file 1) with
  | c0 :: c1 :: _ =>
    (∃ i < (max 0 c1).toNat, badNodeLine (getL file (2 + i))) ∨
    (∃ j < (max 0 c0).toNat, badElemLine (getL file (2 + (max 0 c1).toNat + j)))
  | _ => True

/-! ## Concrete inputs used by counterexamples and witnesses -/

/-- C1 failing input, one boundary block: header "2", then lines
"3" / "1" / "2" / "3".  Candidate A reads 2 single-int lines `[3, 1]`;
Candidate B reads 2 segments, the first declaring 3 ids `[1, 2, 3]` and the
second hitting EOF, so B is `[1, 2, 3]` — strictly longer than A. -/
def c1File : List Line := [[Tok.i 2], [Tok.i 3], [Tok.i 1], [Tok.i 2], [Tok.i 3]]

/-- C3 witness file: blank title, counts "0 0", nothing else (EOF at the
open-boundary header). -/
def c3File : List Line := [[], [Tok.i 0, Tok.i 0]]

/-- The Title..Elements stage value of `c3File`. -/
def c3Stage : Stage1 := ⟨[], 0, 0, [], [], ⟨c3File, 2⟩⟩

/-- C3 witness file with an open-boundary section ("1" boundary, total "2",
ids 7 and 8) and EOF at the land-boundary header. -/
def c3LandFile : List Line :=
  [[], [Tok.i 0, Tok.i 0], [Tok.i 1], [Tok.i 2], [Tok.i 7], [Tok.i 8]]

/-- The Title..Elements stage value of `c3LandFile`. -/
def c3LandStage : Stage1 := ⟨[], 0, 0, [], [], ⟨c3LandFile, 2⟩⟩

/-- C4 counterexample file: counts "1 1", one good node line, and an element
line "1 X 2 2 2" whose second field is a non-numeric token — the parser
never converts that field, so the parse succeeds. -/
def c4File : List Line :=
  [[], [Tok.i 1, Tok.i 1],
   [Tok.i 1, Tok.i 0, Tok.i 0, Tok.i 0],
   [Tok.i 1, Tok.junk [], Tok.i 2, Tok.i 2, Tok.i 2]]

/-- The mesh `parse_fort14` returns on `c4File`. -/
def c4Mesh : Fort14 := ⟨[], 1, 1, [(1, 0, 0, 0)], [(1, 2, 2, 2, 0)], [], []⟩

/-- C5 counterexample file: counts line "-1 -1" declares negative counts;
the parser reads zero node/element lines and succeeds. -/
def c5File : List Line := [[], [Tok.i (-1), Tok.i (-1)]]

/-- The mesh `parse_fort14` returns on `c5File`: empty tables, declared
counts -1. -/
def c5Mesh : Fort14 := ⟨[], -1, -1, [], [], [], []⟩

/-- C7 witness file: counts "0 0", one declared open boundary ("1", total
"2", ids 7 and 8). -/
def c7File : List Line :=
  [[], [Tok.i 0, Tok.i 0], [Tok.i 1], [Tok.i 2], [Tok.i 7], [Tok.i 8]]

/-- The mesh `parse_fort14` returns on `c7File`. -/
def c7Mesh : Fort14 := ⟨[], 0, 0, [], [], [[7, 8]], []⟩

/-- A complete well-formed file: title, counts "2 3", three nodes, two
triangles, one open boundary (ids 1 2) and one land boundary (ids 2 3);
used by the C8 and C9 witnesses. -/
def wfFile : List Line :=
  [[Tok.junk []],
   [Tok.i 2, Tok.i 3],
   [Tok.i 1, Tok.i 0, Tok.i 0, Tok.i 1],
   [Tok.i 2, Tok.i 1, Tok.i 0, Tok.i 1],
   [Tok.i 3, Tok.i 0, Tok.i 1, Tok.i 1],
   [Tok.i 1, Tok.i 3, Tok.i 1, Tok.i 2, Tok.i 3],
   [Tok.i 2, Tok.i 3, Tok.i 1, Tok.i 3, Tok.i 2],
   [Tok.i 1], [Tok.i 2], [Tok.i 1], [Tok.i 2],
   [Tok.i 1], [Tok.i 2], [Tok.i 2], [Tok.i 3]]

/-- The mesh `parse_fort14` returns on `wfFile`. -/
def wfMesh : Fort14 :=
  ⟨[Tok.junk []], 3, 2,
   [(1, 0, 0, 1), (2, 1, 0, 1), (3, 0, 1, 1)],
   [(1, 1, 2, 3, 0), (2, 1, 3, 2, 0)],
   [[1, 2]], [[2, 3]]⟩

/-- The boundaries record `parse_fort14_boundaries` returns on `wfFile`
(the primary pass hits EOF inside the land section, so this is the
fallback, range-filtered). -/
def wfBoundaries : Fort14Boundaries :=
  ⟨[(0, 0), (1, 0), (0, 1)], [[0, 1]], [(none, [1, 2])],
   [("NOPE", 1), ("NBOU", 2), ("NBOB", 1), ("NBOBN", 2),
    ("NNODES", 3), ("NELEMS", 2)]⟩

/-! ## Helper lemmas -/

theorem getElem?_takeWhile_length {α : Type} (p : α → Bool) :
    ∀ l : List α, l[(l.takeWhile p).length]? = (l.dropWhile p).head?
  | [] => rfl
  | a :: l => by
    by_cases hp : p a
    · have h := getElem?_takeWhile_length p l
      simpa [List.takeWhile_cons, List.dropWhile_cons, hp] using h
    · simp [List.takeWhile_cons, List.dropWhile_cons, hp]

theorem head?_dropWhile_false {α : Type} (p : α → Bool) :
    ∀ (l : List α) (x : α), (l.dropWhile p).head? = some x → p x = false
  | [], x, h => by simp at h
  | a :: l, x, h => by
    by_cases hp : p a
    · exact head?_dropWhile_false p l x (by simpa [List.dropWhile_cons, hp] using h)
    · simp [List.dropWhile_cons, hp] at h
      simpa [h] using hp

/-- A line delivered by `read_nonempty_line` is never blank. -/
theorem read_nonempty_line_some {st : FState} {l : Line} {st2 : FState}
    (h : read_nonempty_line st = (some l, st2)) : l ≠ [] := by
  unfold read_nonempty_line at h
  split at h
  · simp at h
  · rename_i l0 hg
    simp only [Prod.mk.injEq, Option.some.injEq] at h
    obtain ⟨rfl, -⟩ := h
    unfold skipBlanks at hg
    rw [← List.getElem?_drop, getElem?_takeWhile_length] at hg
    have h2 := head?_dropWhile_false (fun l => l = []) (st.lines.drop st.pos) l0 hg
    simpa using h2

/-! ## Parser-stage lemmas -/

theorem readTable_ok_parts {α : Type} (f : Line → Except String α)
    (hf : ∃ e, f [] = Except.error e) :
    ∀ (n : Nat) (lines : List Line) (pos : Nat) (as : List α) (st2 : FState),
      readTable f ⟨lines, pos⟩ n = .ok (as, st2) →
      as.length = n ∧ st2 = ⟨lines, pos + n⟩
  | 0, lines, pos, as, st2 => by
    intro h
    simp only [readTable, Except.ok.injEq, Prod.mk.injEq] at h
    obtain ⟨h1, h2⟩ := h
    refine ⟨by rw [← h1]; rfl, ?_⟩
    rw [← h2]
    simp
  | n + 1, lines, pos, as, st2 => by
    intro h
    unfold readTable at h
    cases hg : lines[pos]? with
    | none =>
      obtain ⟨e, he⟩ := hf
      simp only [readline, hg, Option.getD, he] at h
      exact Except.noConfusion h
    | some l =>
      simp only [readline, hg, Option.getD] at h
      cases hfl : f l with
      | error e => rw [hfl] at h; cases h
      | ok a =>
        rw [hfl] at h
        cases hrt : readTable f ⟨lines, pos + 1⟩ n with
        | error e => rw [hrt] at h; cases h
        | ok p =>
          obtain ⟨as1, st3⟩ := p
          rw [hrt] at h
          simp only [Except.ok.injEq, Prod.mk.injEq] at h
          obtain ⟨h1, h2⟩ := h
          have hih := readTable_ok_parts f hf n lines (pos + 1) as1 st3 hrt
          subst h1 h2
          refine ⟨by simp [hih.1], ?_⟩
          rw [hih.2]
          congr 1
          omega

theorem readTable_error_iff {α : Type} (f : Line → Except String α)
    (hf : ∃ e, f [] = Except.error e) :
    ∀ (n : Nat) (lines : List Line) (pos : Nat),
      (∃ e, readTable f ⟨lines, pos⟩ n = .error e) ↔
        ∃ i < n, ∃ e, f (getL lines (pos + i)) = .error e
  | 0, lines, pos => by
    simp [readTable]
  | n + 1, lines, pos => by
    obtain ⟨e0, he0⟩ := hf
    cases hg : lines[pos]? with
    | none =>
      apply iff_of_true
      · exact ⟨e0, by simp only [readTable, readline, hg, Option.getD, he0]⟩
      · exact ⟨0, by omega, e0, by simpa [getL, hg] using he0⟩
    | some l =>
      have hgetl : getL lines (pos + 0) = l := by simp [getL, hg]
      cases hfl : f l with
      | error e =>
        apply iff_of_true
        · exact ⟨e, by simp only [readTable, readline, hg, Option.getD, hfl]⟩
        · exact ⟨0, by omega, e, by rw [hgetl]; exact hfl⟩
      | ok a =>
        have hih := readTable_error_iff f ⟨e0, he0⟩ n lines (pos + 1)
        cases hrt : readTable f ⟨lines, pos + 1⟩ n with
        | error e =>
          apply iff_of_true
          · exact ⟨e, by simp only [readTable, readline, hg, Option.getD, hfl, hrt]⟩
          · obtain ⟨i, hi, e2, he2⟩ := hih.mp ⟨e, hrt⟩
            exact ⟨i + 1, by omega, e2, by
              have : pos + (i + 1) = pos + 1 + i := by omega
              rw [this]; exact he2⟩
        | ok p =>
          apply iff_of_false
          · intro ⟨e, he⟩
            obtain ⟨as1, st3⟩ := p
            simp only [readTable, readline, hg, Option.getD, hfl, hrt] at he
            exact Except.noConfusion he
          · intro ⟨i, hi, e2, he2⟩
            cases i with
            | zero =>
              rw [hgetl, hfl] at he2
              cases he2
            | succ j =>
              have : pos + (j + 1) = pos + 1 + j := by omega
              rw [this] at he2
              obtain ⟨e3, he3⟩ := hih.mpr ⟨j, by omega, e2, he2⟩
              rw [hrt] at he3
              cases he3

/-- `badNodeLine` is exactly the failure condition of `parseNode`. -/
theorem parseNode_error_iff (l : Line) :
    (∃ e, parseNode l = .error e) ↔ badNodeLine l := by
  match l with
  | [] => simp [parseNode, badNodeLine]
  | [t0] => simp [parseNode, badNodeLine]
  | [t0, t1] => simp [parseNode, badNodeLine]
  | [t0, t1, t2] => simp [parseNode, badNodeLine]
  | t0 :: t1 :: t2 :: t3 :: rest =>
    have hlen : ¬ (t0 :: t1 :: t2 :: t3 :: rest).length < 4 := by
      simp only [List.length_cons]
      omega
    cases h0 : t0.pyInt? <;> cases h1 : t1.pyFloat? <;>
      cases h2 : t2.pyFloat? <;> cases h3 : t3.pyFloat? <;>
      simp [parseNode, badNodeLine, h0, h1, h2, h3, hlen]

/-- `badElemLine` is exactly the failure condition of `parseElem`. -/
theorem parseElem_error_iff (l : Line) :
    (∃ e, parseElem l = .error e) ↔ badElemLine l := by
  match l with
  | [] => simp [parseElem, badElemLine]
  | [t0] => simp [parseElem, badElemLine]
  | [t0, t1] => simp [parseElem, badElemLine]
  | [t0, t1, t2] => simp [parseElem, badElemLine]
  | [t0, t1, t2, t3] => simp [parseElem, badElemLine]
  | [t0, t1, t2, t3, t4] =>
    have hlen : ¬ (5 : Nat) < 5 := by omega
    cases h0 : t0.pyInt? <;> cases h2 : t2.pyInt? <;>
      cases h3 : t3.pyInt? <;> cases h4 : t4.pyInt? <;>
      simp [parseElem, badElemLine, h0, h2, h3, h4]
  | t0 :: t1 :: t2 :: t3 :: t4 :: t5 :: rest =>
    have hlen : ¬ (t0 :: t1 :: t2 :: t3 :: t4 :: t5 :: rest).length < 5 := by
      simp only [List.length_cons]
      omega
    have hlen2 : 5 < (t0 :: t1 :: t2 :: t3 :: t4 :: t5 :: rest).length := by
      simp only [List.length_cons]
      omega
    cases h0 : t0.pyInt? <;> cases h2 : t2.pyInt? <;>
      cases h3 : t3.pyInt? <;> cases h4 : t4.pyInt? <;> cases h5 : t5.pyInt? <;>
      simp [parseElem, badElemLine, h0, h2, h3, h4, h5, hlen, hlen2]

/-- `parse_upto_elements` fails exactly under the spec-modelled structural
error conditions. -/
theorem parse_upto_elements_error_iff (file : List Line) :
    (∃ e, parse_upto_elements file = .error e) ↔ structural_error_spec file := by
  match file with
  | [] => simp [parse_upto_elements, structural_error_spec, readline, getL, parse_ints]
  | [l0] => simp [parse_upto_elements, structural_error_spec, readline, getL, parse_ints]
  | l0 :: l1 :: rest =>
    have hg : getL (l0 :: l1 :: rest) 1 = l1 := by simp [getL]
    simp only [parse_upto_elements, structural_error_spec, readline, hg,
      List.getElem?_cons_zero, List.getElem?_cons_succ, Option.getD_some,
      Nat.zero_add, Nat.reduceAdd]
    cases hpc : parse_ints l1 with
    | nil => simp
    | cons c0 t =>
      cases t with
      | nil => simp
      | cons c1 t2 =>
        simp only []
        cases hN : readTable parseNode ⟨l0 :: l1 :: rest, 2⟩ (max 0 c1).toNat with
        | error e =>
          apply iff_of_true
          · exact ⟨e, by simp [hN]⟩
          · left
            obtain ⟨i, hi, e2, he2⟩ :=
              (readTable_error_iff parseNode ⟨_, rfl⟩ (max 0 c1).toNat _ 2).mp ⟨e, hN⟩
            exact ⟨i, hi, (parseNode_error_iff _).mp ⟨e2, he2⟩⟩
        | ok p =>
          obtain ⟨nodes, st3⟩ := p
          have hp := readTable_ok_parts parseNode ⟨_, rfl⟩ (max 0 c1).toNat
            (l0 :: l1 :: rest) 2 nodes st3 hN
          have hnoN : ¬ ∃ i < (max 0 c1).toNat,
              badNodeLine (getL (l0 :: l1 :: rest) (2 + i)) := by
            rintro ⟨i, hi, hb⟩
            obtain ⟨e2, he2⟩ := (parseNode_error_iff _).mpr hb
            obtain ⟨e3, he3⟩ :=
              (readTable_error_iff parseNode ⟨_, rfl⟩ (max 0 c1).toNat _ 2).mpr
                ⟨i, hi, e2, he2⟩
            rw [hN] at he3
            exact Except.noConfusion he3
          simp only [hN, hp.2]
          cases hE : readTable parseElem ⟨l0 :: l1 :: rest, 2 + (max 0 c1).toNat⟩
              (max 0 c0).toNat with
          | error e =>
            apply iff_of_true
            · exact ⟨e, by simp [hE]⟩
            · right
              obtain ⟨j, hj, e2, he2⟩ :=
                (readTable_error_iff parseElem ⟨_, rfl⟩ (max 0 c0).toNat _
                  (2 + (max 0 c1).toNat)).mp ⟨e, hE⟩
              exact ⟨j, hj, (parseElem_error_iff _).mp ⟨e2, he2⟩⟩
          | ok q =>
            obtain ⟨elems, st4⟩ := q
            apply iff_of_false
            · rintro ⟨e, he⟩
              simp only [hE] at he
              exact Except.noConfusion he
            · rintro (⟨i, hi, hb⟩ | ⟨j, hj, hb⟩)
              · exact hnoN ⟨i, hi, hb⟩
              · obtain ⟨e2, he2⟩ := (parseElem_error_iff _).mpr hb
                obtain ⟨e3, he3⟩ :=
                  (readTable_error_iff parseElem ⟨_, rfl⟩ (max 0 c0).toNat _
                    (2 + (max 0 c1).toNat)).mpr ⟨j, hj, e2, he2⟩
                rw [hE] at he3
                exact Except.noConfusion he3

/-- `parse_fort14` fails exactly when its Title..Elements stages fail: the
boundary sections always degrade without raising. -/
theorem parse_fort14_error_iff (file : List Line) :
    (∃ e, parse_fort14 file = .error e) ↔
      (∃ e, parse_upto_elements file = .error e) := by
  unfold parse_fort14
  cases hs : parse_upto_elements file with
  | error e => simp [hs]
  | ok s1 =>
    simp only [hs]
    constructor
    · rintro ⟨e, he⟩
      cases h1 : parse_boundary_section s1.st (s1.nodes.map (fun n => n.1)) with
      | none =>
        simp only [h1] at he
        exact Except.noConfusion he
      | some p =>
        obtain ⟨openB, st2⟩ := p
        simp only [h1] at he
        cases h2 : parse_boundary_section st2 (s1.nodes.map (fun n => n.1)) with
        | none =>
          simp only [h2] at he
          exact Except.noConfusion he
        | some q =>
          obtain ⟨landB, st3⟩ := q
          simp only [h2] at he
          exact Except.noConfusion he
    · rintro ⟨e, he⟩
      exact Except.noConfusion he

/-- Counterexample to claim C4 as stated: in `c4File` the element line has
the non-numeric second field `Tok.junk []` — a field of the Elements stage
that fails numeric conversion — yet `parse_fort14` succeeds, because the
nodes-per-element field is skipped without conversion. -/
theorem claim_C4_counterexample :
    parse_fort14 c4File = .ok c4Mesh
      ∧ (getL c4File 3)[1]? = some (Tok.junk [])
      ∧ (Tok.junk []).pyInt? = none ∧ (Tok.junk []).pyFloat? = none :=
  ⟨rfl, rfl, rfl, rfl⟩

/-- Claim C4 (amended): `parse_fort14` raises exactly under the structural
conditions — counts line with fewer than 2 integers, a node line with fewer
than 4 fields, an element line with fewer than 5 fields, or a *converted*
field failing numeric conversion (node fields 1-4; element fields 1, 3-5,
and 6 when present — the element line's second field is never converted);
such an error aborts the parse, and the boundary stages never raise. -/
theorem claim_C4_amended (file : List Line) :
    (∃ e, parse_fort14 file = .error e) ↔ structural_error_spec file :=
  (parse_fort14_error_iff file).trans (parse_upto_elements_error_iff file)

/-- Witness for the amended C4: a file whose counts line is blank fails. -/
theorem claim_C4_witness : ∃ e, parse_fort14 [[], []] = Except.error e :=
  (claim_C4_amended [[], []]).mpr trivial

/-! ## Claim C5: table lengths -/

theorem stage1_lengths (file : List Line) (s1 : Stage1)
    (h : parse_upto_elements file = .ok s1) :
    s1.nodes.length = (max 0 s1.n_nodes).toNat
      ∧ s1.elements.length = (max 0 s1.n_elements).toNat := by
  unfold parse_upto_elements at h
  cases hpc : parse_ints ((readline (readline ⟨file, 0⟩).2).1.getD []) with
  | nil =>
    simp only [hpc] at h
    exact Except.noConfusion h
  | cons c0 t =>
    cases t with
    | nil =>
      simp only [hpc] at h
      exact Except.noConfusion h
    | cons c1 t2 =>
      simp only [hpc] at h
      cases hN : readTable parseNode (readline (readline ⟨file, 0⟩).2).2
          (max 0 c1).toNat with
      | error e =>
        simp only [hN] at h
        exact Except.noConfusion h
      | ok p =>
        obtain ⟨nodes, st3⟩ := p
        simp only [hN] at h
        cases hE : readTable parseElem st3 (max 0 c0).toNat with
        | error e =>
          simp only [hE] at h
          exact Except.noConfusion h
        | ok q =>
          obtain ⟨elems, st4⟩ := q
          simp only [hE, Except.ok.injEq] at h
          subst h
          have hn := readTable_ok_parts parseNode ⟨_, rfl⟩ (max 0 c1).toNat
            (readline (readline ⟨file, 0⟩).2).2.lines
            (readline (readline ⟨file, 0⟩).2).2.pos nodes st3 hN
          have he2 := readTable_ok_parts parseElem ⟨_, rfl⟩ (max 0 c0).toNat
            st3.lines st3.pos elems st4 hE
          exact ⟨hn.1, he2.1⟩

theorem parse_fort14_ok_fields (file : List Line) (m : Fort14)
    (h : parse_fort14 file = .ok m) :
    ∃ s1, parse_upto_elements file = .ok s1 ∧ m.title = s1.title
      ∧ m.n_nodes = s1.n_nodes ∧ m.n_elements = s1.n_elements
      ∧ m.nodes = s1.nodes ∧ m.elements = s1.elements := by
  unfold parse_fort14 at h
  cases hs : parse_upto_elements file with
  | error e =>
    rw [hs] at h
    exact Except.noConfusion h
  | ok s1 =>
    refine ⟨s1, rfl, ?_⟩
    simp only [hs] at h
    cases h1 : parse_boundary_section s1.st (s1.nodes.map (fun n => n.1)) with
    | none =>
      simp only [h1, Except.ok.injEq] at h
      subst h
      exact ⟨rfl, rfl, rfl, rfl, rfl⟩
    | some p =>
      obtain ⟨openB, st2⟩ := p
      simp only [h1] at h
      cases h2 : parse_boundary_section st2 (s1.nodes.map (fun n => n.1)) with
      | none =>
        simp only [h2, Except.ok.injEq] at h
        subst h
        exact ⟨rfl, rfl, rfl, rfl, rfl⟩
      | some q =>
        obtain ⟨landB, st3⟩ := q
        simp only [h2, Except.ok.injEq] at h
        subst h
        exact ⟨rfl, rfl, rfl, rfl, rfl⟩

/-- Counterexample to claim C5 as stated: the counts line "-1 -1" declares
`node_count = element_count = -1`; the parse succeeds with empty tables, so
`len(nodes) ≠ node_count`. -/
theorem claim_C5_counterexample :
    parse_fort14 c5File = .ok c5Mesh
      ∧ ((c5Mesh.nodes.length : Int) ≠ c5Mesh.n_nodes) :=
  ⟨rfl, by decide⟩

/-- Claim C5 (amended): whenever `parse_fort14` returns normally,
`len(nodes) = max(0, node_count)` and `len(elements) = max(0,
element_count)` for the declared header counts (so exactly the declared
counts whenever they are non-negative); a short read in either table is
fatal rather than producing a shorter list. -/
theorem claim_C5_amended (file : List Line) (m : Fort14)
    (h : parse_fort14 file = .ok m) :
    m.nodes.length = (max 0 m.n_nodes).toNat
      ∧ m.elements.length = (max 0 m.n_elements).toNat := by
  obtain ⟨s1, hs1, ht, hn, hne, hnd, hel⟩ := parse_fort14_ok_fields file m h
  rw [hnd, hn, hel, hne]
  exact stage1_lengths file s1 hs1

/-- Witness for the amended C5 at a concrete well-formed file. -/
theorem claim_C5_witness :
    parse_fort14 wfFile = .ok wfMesh
      ∧ wfMesh.nodes.length = (max 0 wfMesh.n_nodes).toNat
      ∧ wfMesh.elements.length = (max 0 wfMesh.n_elements).toNat :=
  ⟨rfl, claim_C5_amended wfFile wfMesh rfl⟩

/-! ## Claim C3: degraded boundary headers -/

theorem section_none_iff (st : FState) (k : List Int) :
    parse_boundary_section st k = none ↔ header_unreadable st := by
  unfold parse_boundary_section header_unreadable
  cases hr : read_nonempty_line st with
  | mk o st1 =>
    cases o with
    | none => simp [hr]
    | some l =>
      cases l with
      | nil => exact absurd rfl (read_nonempty_line_some hr)
      | cons t rest =>
        cases ht : t.pyInt? with
        | none => simp [hr, ht]
        | some v => simp [hr, ht]

/-- Claim C3 (confirmed): after a successful Title..Elements stage, an
unreadable open-boundary group-count header (EOF or non-integer first
token) makes `parse_fort14` return the partial mesh with both boundary
lists empty; an unreadable land-boundary header after a parsed open section
returns the mesh with the parsed open boundaries and an empty land list. -/
theorem claim_C3 (file : List Line) (s1 : Stage1)
    (h : parse_upto_elements file = .ok s1) :
    (header_unreadable s1.st →
      parse_fort14 file
        = .ok ⟨s1.title, s1.n_nodes, s1.n_elements, s1.nodes, s1.elements, [], []⟩)
    ∧ ∀ ob st2,
        parse_boundary_section s1.st (s1.nodes.map (fun n => n.1)) = some (ob, st2) →
        header_unreadable st2 →
        parse_fort14 file
          = .ok ⟨s1.title, s1.n_nodes, s1.n_elements, s1.nodes, s1.elements, ob, []⟩ := by
  constructor
  · intro hu
    have hn := (section_none_iff s1.st (s1.nodes.map (fun n => n.1))).mpr hu
    unfold parse_fort14
    simp only [h, hn]
  · intro ob st2 hsec hu
    have hn := (section_none_iff st2 (s1.nodes.map (fun n => n.1))).mpr hu
    unfold parse_fort14
    simp only [h, hsec, hn]

/-- Witness for C3: EOF at the open header (file `c3File`), and EOF at the
land header after a parsed open boundary (file `c3LandFile`). -/
theorem claim_C3_witness :
    parse_fort14 c3File = .ok ⟨[], 0, 0, [], [], [], []⟩
      ∧ parse_fort14 c3LandFile = .ok ⟨[], 0, 0, [], [], [[7, 8]], []⟩ :=
  ⟨(claim_C3 c3File c3Stage rfl).1 (Or.inl rfl),
   (claim_C3 c3LandFile c3LandStage rfl).2 [[7, 8]] ⟨c3LandFile, 6⟩ rfl (Or.inl rfl)⟩

/-! ## Claim C7: one chain per declared open boundary -/

theorem boundary_loop_length (k : List Int) (t : Option Int) :
    ∀ (n : Nat) (st : FState), (boundary_loop st k t n).1.length = n
  | 0, _ => rfl
  | n + 1, st => by
    simp [boundary_loop, boundary_loop_length k t n]

theorem parse_boundary_body_length (st1 : FState) (k : List Int) (nB : Int) :
    (parse_boundary_body st1 k nB).1.length
      = if nB = 1 then 1 else (max 0 nB).toNat := by
  unfold parse_boundary_body
  by_cases h1 : nB = 1
  · subst h1
    rw [if_pos rfl]
    repeat' split
    all_goals try rfl
    all_goals
      rw [apply_ite (fun p : List (List Int) × FState => p.1.length)]
    all_goals simp
  · rw [if_neg h1, if_neg h1]
    exact boundary_loop_length k _ _ _

/-- Claim C7 (confirmed): when a file declares `n_open ≥ 0` open boundary
groups and `parse_fort14` returns normally, the mesh carries exactly
`n_open` open-boundary chains (one `_parse_one_boundary` result per
declared group, in order — so two declared boundaries are never merged). -/
theorem claim_C7 (file : List Line) (m : Fort14) (v : Int)
    (hok : parse_fort14 file = .ok m)
    (hdecl : declared_n_open file = some v) (hv : 0 ≤ v) :
    (m.open_boundaries.length : Int) = v := by
  unfold declared_n_open at hdecl
  cases hs : parse_upto_elements file with
  | error e =>
    rw [hs] at hdecl
    exact Option.noConfusion hdecl
  | ok s1 =>
    rw [hs] at hdecl
    cases hr : read_nonempty_line s1.st with
    | mk o st1 =>
      cases o with
      | none =>
        simp only [hr] at hdecl
        exact Option.noConfusion hdecl
      | some l =>
        cases l with
        | nil =>
          simp only [hr] at hdecl
          exact Option.noConfusion hdecl
        | cons t rest =>
          simp only [hr] at hdecl
          have hsec : parse_boundary_section s1.st (s1.nodes.map (fun n => n.1))
              = some (parse_boundary_body st1 (s1.nodes.map (fun n => n.1)) v) := by
            unfold parse_boundary_section
            simp only [hr, hdecl]
          unfold parse_fort14 at hok
          simp only [hs, hsec] at hok
          have hopen : m.open_boundaries
              = (parse_boundary_body st1 (s1.nodes.map (fun n => n.1)) v).1 := by
            cases h2 : parse_boundary_section
                (parse_boundary_body st1 (s1.nodes.map (fun n => n.1)) v).2
                (s1.nodes.map (fun n => n.1)) with
            | none =>
              simp only [h2, Except.ok.injEq] at hok
              subst hok
              rfl
            | some q =>
              obtain ⟨landB, st3⟩ := q
              simp only [h2, Except.ok.injEq] at hok
              subst hok
              rfl
          rw [hopen, parse_boundary_body_length]
          by_cases hv1 : v = 1
          · simp [hv1]
          · rw [if_neg hv1]
            have hm : max 0 v = v := max_eq_right hv
            rw [hm, Int.toNat_of_nonneg hv]

/-- Witness for C7 at `c7File`, which declares exactly one open boundary. -/
theorem claim_C7_witness :
    parse_fort14 c7File = .ok c7Mesh ∧ declared_n_open c7File = some 1
      ∧ (c7Mesh.open_boundaries.length : Int) = 1 :=
  ⟨rfl, rfl, claim_C7 c7File c7Mesh 1 rfl rfl (by decide)⟩

/-! ## Claim C9: range-filtered segments -/

theorem foldl_min_le_init : ∀ (xs : List Int) (a : Int), xs.foldl min a ≤ a
  | [], a => le_refl a
  | x :: xs, a => le_trans (foldl_min_le_init xs (min a x)) (min_le_left a x)

theorem foldl_min_le_mem :
    ∀ (xs : List Int) (a x : Int), x ∈ xs → xs.foldl min a ≤ x
  | [], _, x, hx => absurd hx (List.not_mem_nil x)
  | y :: xs, a, x, hx => by
    rcases List.mem_cons.mp hx with rfl | hx2
    · exact le_trans (foldl_min_le_init xs (min a x)) (min_le_right a x)
    · exact foldl_min_le_mem xs (min a y) x hx2

theorem listMinI_le (l : List Int) (x : Int) (hx : x ∈ l) : listMinI l ≤ x := by
  cases l with
  | nil => cases hx
  | cons a xs =>
    rcases List.mem_cons.mp hx with rfl | h
    · exact foldl_min_le_init xs x
    · exact foldl_min_le_mem xs a x h

theorem le_foldl_max_init : ∀ (xs : List Int) (a : Int), a ≤ xs.foldl max a
  | [], a => le_refl a
  | x :: xs, a => le_trans (le_max_left a x) (le_foldl_max_init xs (max a x))

theorem mem_le_foldl_max :
    ∀ (xs : List Int) (a x : Int), x ∈ xs → x ≤ xs.foldl max a
  | [], _, x, hx => absurd hx (List.not_mem_nil x)
  | y :: xs, a, x, hx => by
    rcases List.mem_cons.mp hx with rfl | hx2
    · exact le_trans (le_max_right a x) (le_foldl_max_init xs (max a x))
    · exact mem_le_foldl_max xs (max a y) x hx2

theorem le_listMaxI (l : List Int) (x : Int) (hx : x ∈ l) : x ≤ listMaxI l := by
  cases l with
  | nil => cases hx
  | cons a xs =>
    rcases List.mem_cons.mp hx with rfl | h
    · exact le_foldl_max_init xs x
    · exact mem_le_foldl_max xs a x h

theorem in_range_all (nmax : Int) (seg : List Int)
    (h : in_range nmax seg = true) :
    seg = [] ∨ ∀ i ∈ seg, 0 ≤ i ∧ i < nmax := by
  simp only [in_range, decide_eq_true_eq] at h
  rcases h with h | ⟨h1, h2⟩
  · exact Or.inl (List.length_eq_zero.mp h)
  · refine Or.inr fun i hi => ⟨?_, ?_⟩
    · exact le_trans h1 (listMinI_le seg i hi)
    · exact lt_of_le_of_lt (le_listMaxI seg i hi) h2

theorem assemble_in_range (xy : List (Rat × Rat))
    (rr : List (List Int) × List (Option Int × List Int) × List (String × Int)) :
    (∀ seg ∈ (assemble_boundaries xy rr).open_segments,
        seg = [] ∨ ∀ i ∈ seg,
          0 ≤ i ∧ i < ((assemble_boundaries xy rr).nodes_xy.length : Int))
      ∧ ∀ p ∈ (assemble_boundaries xy rr).land_segments,
          p.2 = [] ∨ ∀ i ∈ p.2,
            0 ≤ i ∧ i < ((assemble_boundaries xy rr).nodes_xy.length : Int) := by
  simp only [assemble_boundaries]
  constructor
  · intro seg hm
    exact in_range_all _ _ (List.mem_filter.mp hm).2
  · intro p hm
    exact in_range_all _ _ (List.mem_filter.mp hm).2

theorem pfb_ok_shape (file : List Line) (r : Fort14Boundaries)
    (h : parse_fort14_boundaries file = .ok r) :
    ∃ xy rr, r = assemble_boundaries xy rr := by
  unfold parse_fort14_boundaries at h
  cases hm : parse_fort14 file with
  | error e =>
    rw [hm] at h
    exact Except.noConfusion h
  | ok m =>
    simp only [hm, Except.ok.injEq] at h
    exact ⟨_, _, h.symm⟩

/-- Claim C9 (confirmed): every segment of a returned `Fort14Boundaries` —
open segments and land segment node lists alike — is empty or lies entirely
within `[0, len(nodes_xy))`, on the primary and the fallback path: the final
range filter guarantees it. -/
theorem claim_C9 (file : List Line) (r : Fort14Boundaries)
    (h : parse_fort14_boundaries file = .ok r) :
    (∀ seg ∈ r.open_segments,
        seg = [] ∨ ∀ i ∈ seg, 0 ≤ i ∧ i < (r.nodes_xy.length : Int))
      ∧ ∀ p ∈ r.land_segments,
          p.2 = [] ∨ ∀ i ∈ p.2, 0 ≤ i ∧ i < (r.nodes_xy.length : Int) := by
  obtain ⟨xy, rr, rfl⟩ := pfb_ok_shape file r h
  exact assemble_in_range xy rr

set_option maxHeartbeats 2000000 in
/-- Witness for C9 at a concrete file with non-empty boundary segments. -/
theorem claim_C9_witness :
    parse_fort14_boundaries wfFile = .ok wfBoundaries
      ∧ ((∀ seg ∈ wfBoundaries.open_segments,
            seg = [] ∨ ∀ i ∈ seg, 0 ≤ i ∧ i < (wfBoundaries.nodes_xy.length : Int))
        ∧ ∀ p ∈ wfBoundaries.land_segments,
            p.2 = [] ∨ ∀ i ∈ p.2, 0 ≤ i ∧ i < (wfBoundaries.nodes_xy.length : Int)) :=
  ⟨rfl, claim_C9 wfFile wfBoundaries rfl⟩

/-! ## Claim C10: edge multiplicity map -/

theorem dictInc_sum (k : Int × Int) :
    ∀ l : List ((Int × Int) × Nat),
      ((dictInc l k).map (fun p => p.2)).sum = ((l.map (fun p => p.2)).sum) + 1
  | [] => by simp [dictInc]
  | (k0, v) :: rest => by
    by_cases h : k0 = k <;> simp [dictInc, h, dictInc_sum k rest] <;> omega

theorem dictInc_keys (k : Int × Int) :
    ∀ (l : List ((Int × Int) × Nat)) (p : (Int × Int) × Nat),
      p ∈ dictInc l k → p.1 = k ∨ p ∈ l
  | [], p, hp => by
    simp [dictInc] at hp
    exact Or.inl (by simp [hp])
  | (k0, v) :: rest, p, hp => by
    by_cases h : k0 = k
    · simp only [dictInc, h, if_pos rfl] at hp
      rcases List.mem_cons.mp hp with h1 | h1
      · exact Or.inl (by simp [h1, h])
      · exact Or.inr (List.mem_cons_of_mem _ h1)
    · simp only [dictInc, if_neg h] at hp
      rcases List.mem_cons.mp hp with h1 | h1
      · exact Or.inr (by simp [h1])
      · rcases dictInc_keys k rest p h1 with h2 | h2
        · exact Or.inl h2
        · exact Or.inr (List.mem_cons_of_mem _ h2)

theorem normEdge_le (i j : Int) : (normEdge i j).1 ≤ (normEdge i j).2 := by
  unfold normEdge
  split <;> omega

theorem addElemEdges_sum (l : List ((Int × Int) × Nat)) (e : Elem) :
    ((addElemEdges l e).map (fun p => p.2)).sum
      = ((l.map (fun p => p.2)).sum) + 3 := by
  unfold addElemEdges
  rw [dictInc_sum, dictInc_sum, dictInc_sum]

theorem addElemEdges_keys (l : List ((Int × Int) × Nat)) (e : Elem)
    (p : (Int × Int) × Nat) (hp : p ∈ addElemEdges l e) :
    p.1.1 ≤ p.1.2 ∨ p ∈ l := by
  unfold addElemEdges at hp
  rcases dictInc_keys _ _ _ hp with h | h
  · exact Or.inl (h ▸ normEdge_le _ _)
  rcases dictInc_keys _ _ _ h with h1 | h1
  · exact Or.inl (h1 ▸ normEdge_le _ _)
  rcases dictInc_keys _ _ _ h1 with h2 | h2
  · exact Or.inl (h2 ▸ normEdge_le _ _)
  · exact Or.inr h2

theorem foldl_addElemEdges_sum :
    ∀ (els : List Elem) (acc : List ((Int × Int) × Nat)),
      ((els.foldl addElemEdges acc).map (fun p => p.2)).sum
        = ((acc.map (fun p => p.2)).sum) + 3 * els.length
  | [], acc => by simp
  | e :: els, acc => by
    have h := foldl_addElemEdges_sum els (addElemEdges acc e)
    simp only [List.foldl_cons, List.length_cons] at h ⊢
    rw [h, addElemEdges_sum]
    ring

theorem foldl_addElemEdges_keys :
    ∀ (els : List Elem) (acc : List ((Int × Int) × Nat)),
      (∀ p ∈ acc, p.1.1 ≤ p.1.2) →
      ∀ p ∈ els.foldl addElemEdges acc, p.1.1 ≤ p.1.2
  | [], acc, hacc => hacc
  | e :: els, acc, hacc => by
    refine foldl_addElemEdges_keys els (addElemEdges acc e) ?_
    intro p hp
    rcases addElemEdges_keys acc e p hp with h | h
    · exact h
    · exact hacc p h

/-- Claim C10 (confirmed): over any element sequence, the multiplicities in
the map returned by `build_edge_counts` sum to 3 times the number of
elements (each triangle contributes its three normalized undirected edges),
and every key `(i, j)` satisfies `i ≤ j`. -/
theorem claim_C10 (elements : List Elem) :
    ((build_edge_counts elements).map (fun p => p.2)).sum = 3 * elements.length
      ∧ ∀ p ∈ build_edge_counts elements, p.1.1 ≤ p.1.2 := by
  constructor
  · have h := foldl_addElemEdges_sum elements []
    simpa [build_edge_counts] using h
  · exact foldl_addElemEdges_keys elements [] (by simp)

/-- Witness for C10 at a concrete element list. -/
theorem claim_C10_witness :
    ((build_edge_counts [(1, 1, 2, 3, 0)]).map (fun p => p.2)).sum
        = 3 * [((1 : Int), (1 : Int), (2 : Int), (3 : Int), (0 : Int))].length
      ∧ ∀ p ∈ build_edge_counts [(1, 1, 2, 3, 0)], p.1.1 ≤ p.1.2 :=
  claim_C10 [(1, 1, 2, 3, 0)]

/-! ## Claim C2: walked loops -/

theorem walkFromStart_mem (nbrs : List (Int × List Int)) (fuel : Nat)
    (acc : List (List Int) × List (Int × Int)) (s : Int) :
    ∀ l ∈ (walkFromStart nbrs fuel acc s).1, l ∈ acc.1 ∨ 3 ≤ l.length := by
  intro l hl
  unfold walkFromStart at hl
  repeat' split at hl
  all_goals first
    | exact Or.inl hl
    | (rcases List.mem_append.mp hl with h | h
       · exact Or.inl h
       · rename_i hlen _
         simp only [List.mem_singleton] at h
         subst h
         exact Or.inr (by omega))

theorem walk_foldl_min_length (nbrs : List (Int × List Int)) (fuel : Nat) :
    ∀ (keys : List Int) (acc : List (List Int) × List (Int × Int)),
      (∀ l ∈ acc.1, 3 ≤ l.length) →
      ∀ l ∈ (keys.foldl (walkFromStart nbrs fuel) acc).1, 3 ≤ l.length
  | [], acc, hacc => hacc
  | s :: keys, acc, hacc => by
    refine walk_foldl_min_length nbrs fuel keys (walkFromStart nbrs fuel acc s) ?_
    intro l hl
    rcases walkFromStart_mem nbrs fuel acc s l hl with h | h
    · exact hacc l h
    · exact h

/-- Counterexample to claim C2 as stated: boundary edges `[(1,2), (2,3)]`
form an open chain; `walk_closed_loops` returns it as the single loop
`[1, 2, 3]`, whose first node differs from its last — the open chain is not
discarded and the returned loop is not closed. -/
theorem claim_C2_counterexample :
    walk_closed_loops [(1, 2), (2, 3)] = [[1, 2, 3]]
      ∧ ([1, 2, 3] : List Int).head? ≠ ([1, 2, 3] : List Int).getLast? := by
  decide

/-- Claim C2 (amended): every loop returned by `walk_closed_loops` has at
least 3 entries (counting the repeated closing node); shorter results are
discarded.  A walk that exhausts candidates without returning to its start
is returned as an open chain rather than discarded, and the 3-entry minimum
counts entries, not distinct nodes. -/
theorem claim_C2_amended (edges : List (Int × Int)) (l : List Int)
    (h : l ∈ walk_closed_loops edges) : 3 ≤ l.length := by
  unfold walk_closed_loops at h
  exact walk_foldl_min_length _ _ _ _ (by simp) l h

/-- Witness for the amended C2 at a concrete edge list. -/
theorem claim_C2_witness :
    [1, 2, 3] ∈ walk_closed_loops [(1, 2), (2, 3)]
      ∧ 3 ≤ ([1, 2, 3] : List Int).length :=
  ⟨by decide, claim_C2_amended [(1, 2), (2, 3)] [1, 2, 3] (by decide)⟩

/-! ## Claim C6: degenerate-mesh fallback -/

theorem boundary_edges_nil_of_no_mult1 (counts : List ((Int × Int) × Nat))
    (h : ∀ p ∈ counts, p.2 ≠ 1) : boundary_edges_from_counts counts = [] := by
  unfold boundary_edges_from_counts
  have : counts.filter (fun p => p.2 = 1) = [] := by
    rw [List.filter_eq_nil_iff]
    intro p hp
    simpa using h p hp
  rw [this, List.map_nil]

/-- Counterexample to claim C6 as stated: the single degenerate element
`(1, 5, 5, 5, 0)` is a non-empty element list whose only undirected edge
`(5,5)` has multiplicity 3 (never 1), yet `compute_outer_loops` returns the
empty loop set — the fallback ring requires at least 3 unique node ids. -/
theorem claim_C6_counterexample :
    compute_outer_loops [(1, 5, 5, 5, 0)] = []
      ∧ (∀ p ∈ build_edge_counts [(1, 5, 5, 5, 0)], p.2 ≠ 1)
      ∧ ([(1, 5, 5, 5, 0)] : List Elem) ≠ [] := by
  decide

/-- Claim C6 (amended): for every element list with no multiplicity-1 edge
and at least 3 unique referenced node ids, `compute_outer_loops` returns the
single fallback ring of unique node ids in first-seen order, closed by
repeating the first id; with fewer than 3 unique ids it returns no loops. -/
theorem claim_C6_amended (els : List Elem)
    (h1 : ∀ p ∈ build_edge_counts els, p.2 ≠ 1)
    (h2 : 3 ≤ (uniqueElemNodes els).length) :
    compute_outer_loops els
      = [uniqueElemNodes els ++ [(uniqueElemNodes els).headI]] := by
  unfold compute_outer_loops
  rw [boundary_edges_nil_of_no_mult1 _ h1]
  have hw : walk_closed_loops [] = [] := rfl
  rw [hw]
  simp only [ne_eq, not_true_eq_false, if_false, if_pos h2]

/-- Witness for the amended C6: two identical triangles duplicate every
edge, and the fallback ring is `[1, 2, 3, 1]`. -/
theorem claim_C6_witness :
    compute_outer_loops [(1, 1, 2, 3, 0), (2, 1, 2, 3, 0)]
      = [uniqueElemNodes [(1, 1, 2, 3, 0), (2, 1, 2, 3, 0)]
          ++ [(uniqueElemNodes [(1, 1, 2, 3, 0), (2, 1, 2, 3, 0)]).headI]] :=
  claim_C6_amended [(1, 1, 2, 3, 0), (2, 1, 2, 3, 0)] (by decide) (by decide)

/-! ## Claim C1: dual-candidate selection -/

/-- Claim C1 (code bug): on the boundary block `c1File` (header "2", then
"3" / "1" / "2" / "3") Candidate A is `[3, 1]` (length 2) and Candidate B is
`[1, 2, 3]` (length 3).  The docstring of `_parse_one_boundary` (and the
spec) require the strictly higher-scoring candidate — B, longer — with ties
preferring B, but the implementation returns Candidate A whenever it exists;
no score is computed and `known_node_ids` is never read. -/
theorem claim_C1_code_divergence :
    (parse_one_boundary ⟨c1File, 0⟩ [1, 2, 3] none).1 = [3, 1]
      ∧ (build_candidate_b_go ⟨c1File, 1⟩ 2).1 = [1, 2, 3]
      ∧ (parse_one_boundary ⟨c1File, 0⟩ [1, 2, 3] none).1.length
          < (build_candidate_b_go ⟨c1File, 1⟩ 2).1.length := by
  decide

/-! ## Claim C8: determinism -/

/-- Claim C8 (confirmed): `parse_fort14` is a pure function of the file
content — the source keeps no module-level mutable state — so two parses of
the same bytes yield structurally equal meshes, component by component. -/
theorem claim_C8 (file : List Line) (m1 m2 : Fort14)
    (h1 : parse_fort14 file = .ok m1) (h2 : parse_fort14 file = .ok m2) :
    m1.title = m2.title ∧ m1.n_nodes = m2.n_nodes
      ∧ m1.n_elements = m2.n_elements ∧ m1.nodes = m2.nodes
      ∧ m1.elements = m2.elements
      ∧ m1.open_boundaries = m2.open_boundaries
      ∧ m1.land_boundaries = m2.land_boundaries := by
  have h := h1.symm.trans h2
  have h3 := Except.ok.inj h
  subst h3
  exact ⟨rfl, rfl, rfl, rfl, rfl, rfl, rfl⟩

/-- Witness for C8 at a concrete well-formed file. -/
theorem claim_C8_witness :
    parse_fort14 wfFile = .ok wfMesh
      ∧ (wfMesh.title = wfMesh.title ∧ wfMesh.n_nodes = wfMesh.n_nodes
          ∧ wfMesh.n_elements = wfMesh.n_elements ∧ wfMesh.nodes = wfMesh.nodes
          ∧ wfMesh.elements = wfMesh.elements
          ∧ wfMesh.open_boundaries = wfMesh.open_boundaries
          ∧ wfMesh.land_boundaries = wfMesh.land_boundaries) :=
  ⟨rfl, claim_C8 wfFile wfMesh wfMesh rfl rfl⟩

end OceanMesh
